import Mathlib

/-!
Verification of the stream-job supervisor in `app.py` (repository liveyt2).

The Python source is shallowly embedded: the supervisor's observable state
(the catalog of stream jobs held in `st.session_state.streams` and mirrored
in `streams_data.json`, the active-jobs mapping `active_streams.json`, the
per-job transient files `stream_<i>.pid` / `stream_<i>.status` /
`stream_<i>.log`, and the operating system's process table as seen through
`psutil`) becomes a record of association lists, and every operation of the
source becomes a total Lean function on that record.

Status strings are kept exactly as in the source (Indonesian):
`"Menunggu"` = Waiting, `"Sedang Live"` = Live, `"Selesai"` = Finished,
`"Dihentikan"` = Stopped, `"Terputus"` = Disconnected, and error statuses
are the literal marker strings starting with `"error:"`.

File contents that the source parses (`int(f.read().strip())` for pid
files, `json.load` for the two stores) are modelled at the type level:
pid files carry a `Nat`, the stores' load functions take the outcome of
the read/parse as an `Option (Except Unit _)` argument (`none` = the file
does not exist, `some (.error _)` = the read or parse raised).  The posix
branch of the source is modelled (`os.name != 'nt'`).
-/

/-- Python's `str.lower()` restricted to ASCII (enough for the process
names being compared against "ffmpeg"). -/
def pyLower (s : String) : String := String.mk (s.data.map Char.toLower)

/-- Python's substring test `needle in hay` (used as
`'ffmpeg' in process.name().lower()` in `is_process_running`). -/
def strContains (hay needle : String) : Bool :=
  hay.toList.tails.any (fun t => needle.toList.isPrefixOf t)

/-- Python's `s.startswith(p)` (used as `status.startswith("error:")`). -/
def strStartsWith (s p : String) : Bool :=
  p.toList.isPrefixOf s.toList

/-- Association-list lookup; models both the JSON dictionaries keyed by
`str(row_id)` and directory contents keyed by the file name's row id. -/
def lookupA {κ α : Type} [DecidableEq κ] : List (κ × α) → κ → Option α
  | [], _ => none
  | (k', v) :: t, k => if k' = k then some v else lookupA t k

/-- Deleting a key: `del d[k]` or `os.remove` of a per-job file. -/
def eraseA {κ α : Type} [DecidableEq κ] (l : List (κ × α)) (k : κ) : List (κ × α) :=
  l.filter (fun p => p.1 ≠ k)

/-- Setting a key: `d[k] = v` or (re)writing a per-job file. -/
def insertA {κ α : Type} [DecidableEq κ] (l : List (κ × α)) (k : κ) (v : α) : List (κ × α) :=
  (k, v) :: eraseA l k

/-- One row of the `streams` DataFrame (columns fixed by
`load_persistent_streams`). -/
structure StreamJob where
  video : String
  durasi : String
  jamMulai : String
  streamingKey : String
  status : String
  isShorts : Bool
  quality : String
deriving DecidableEq

/-- One entry of the `active_streams.json` mapping:
`{'pid': ..., 'started_at': ...}`. -/
structure ActiveRecord where
  pid : Nat
  startedAt : String
deriving DecidableEq

/-- The `psutil` view of one OS process: `ex` is the result of
`psutil.pid_exists`, `pname` the result of `Process(pid).name()` (`none`
when that call raises `NoSuchProcess`/`AccessDenied`), `pgid` the result
of `os.getpgid`, and `dieOnTerm` says whether the process is gone by the
time `time.sleep(2)` after `SIGTERM` has elapsed. -/
structure ProcView where
  ex : Bool
  pname : Option String
  pgid : Nat
  dieOnTerm : Bool
deriving DecidableEq

/-- The supervisor's whole observable state. -/
structure SupState where
  streams : List StreamJob
  active : List (Nat × ActiveRecord)
  pidFiles : List (Nat × Nat)
  statusFiles : List (Nat × String)
  logFiles : List (Nat × List String)
  procs : List (Nat × ProcView)
deriving DecidableEq

/-- Answer of `psutil` for a pid: absent pids read as a dead, nameless
process. -/
def procView (procs : List (Nat × ProcView)) (pid : Nat) : ProcView :=
  (lookupA procs pid).getD ⟨false, none, 0, false⟩

/-- Model of `is_process_running` (app.py:81-92): the pid must exist and the
process name must contain `ffmpeg`; a raising `Process`/`name()` call is
caught and yields `False`.  The embedding is a total function, so it can
never propagate an exception. -/
def is_process_running (procs : List (Nat × ProcView)) (pid : Nat) : Bool :=
  let v := procView procs pid
  v.ex && (match v.pname with
           | some n => strContains (pyLower n) "ffmpeg"
           | none => false)

/-- Read of `row['Status']` for row `i` (rows out of range read as `""`, which is
never a status the source writes). -/
def statusAt (l : List StreamJob) (i : Nat) : String :=
  match l[i]? with
  | some j => j.status
  | none => ""

/-- Read of `row['Jam Mulai']` for row `i`. -/
def jamAt (l : List StreamJob) (i : Nat) : String :=
  match l[i]? with
  | some j => j.jamMulai
  | none => ""

/-- Model of `st.session_state.streams.loc[i, 'Status'] = st` for an existing row
(every caller in the source addresses an existing row). -/
def setStatus (l : List StreamJob) (i : Nat) (st : String) : List StreamJob :=
  match l[i]? with
  | some j => l.set i { j with status := st }
  | none => l

/-- Model of `cleanup_stream_files` (app.py:132-144): removes `stream_<i>.pid` and
`stream_<i>.status`; missing files are not an error. -/
def cleanup_stream_files (s : SupState) (i : Nat) : SupState :=
  { s with pidFiles := eraseA s.pidFiles i, statusFiles := eraseA s.statusFiles i }

/-- The fixed schema of the catalog (app.py:33-38). -/
def fixedColumns : List String :=
  ["Video", "Durasi", "Jam Mulai", "Streaming Key", "Status", "Is Shorts", "Quality"]

/-- A parsed catalog: the DataFrame's columns and rows. -/
structure Catalog where
  columns : List String
  rows : List StreamJob
deriving DecidableEq

/-- The empty catalog with the fixed schema, produced on every failed
load. -/
def emptyCatalog : Catalog := ⟨fixedColumns, []⟩

/-- Model of `load_persistent_streams` (app.py:25-38).  The argument is the outcome
of the file read: `none` when `streams_data.json` does not exist,
`some (.error _)` when opening or `json.load` raised (the bare `except`
catches everything), `some (.ok c)` on success.  The function is total:
no failure propagates. -/
def load_persistent_streams (file : Option (Except Unit Catalog)) : Catalog :=
  match file with
  | none => emptyCatalog
  | some (Except.error _) => emptyCatalog
  | some (Except.ok c) => c

/-- Model of `load_active_streams` (app.py:48-56): same failure policy, empty
mapping on any failure. -/
def load_active_streams (file : Option (Except Unit (List (Nat × ActiveRecord)))) :
    List (Nat × ActiveRecord) :=
  match file with
  | none => []
  | some (Except.error _) => []
  | some (Except.ok m) => m

/-- One quality profile of `get_quality_settings` (app.py:146-174). -/
structure QSettings where
  video_bitrate : String
  audio_bitrate : String
  maxrate : String
  bufsize : String
  scale : String
  fps : String
deriving DecidableEq

/-- The `settings` dictionary of `get_quality_settings`, with the
orientation-dependent `scale` entries. -/
def settingsTable (is_shorts : Bool) : List (String × QSettings) :=
  [ ("720p", ⟨"2500k", "128k", "2750k", "5500k",
      if is_shorts then "720:1280" else "1280:720", "30"⟩),
    ("1080p", ⟨"4500k", "192k", "4950k", "9900k",
      if is_shorts then "1080:1920" else "1920:1080", "30"⟩),
    ("480p", ⟨"1000k", "96k", "1100k", "2200k",
      if is_shorts then "480:854" else "854:480", "30"⟩) ]

/-- Model of `get_quality_settings` (app.py:146-174): `settings.get(quality,
settings["720p"])`. -/
def get_quality_settings (quality : String) (is_shorts : Bool) : QSettings :=
  match lookupA (settingsTable is_shorts) quality with
  | some v => v
  | none => (lookupA (settingsTable is_shorts) "720p").getD ⟨"", "", "", "", "", ""⟩

/-- The body of the loop of `reconnect_to_existing_streams` (app.py:94-130)
for one `stream_<rid>.pid` file holding pid `e.2`: a running process
restores the row's status to `Sedang Live` and re-registers the active
record (when the row exists); a dead one has its transient files cleaned
and its active record removed (the row's status is NOT touched in that
branch).  `started_at` (a wall-clock timestamp) is modelled as `""`. -/
def reconnectOne (s : SupState) (e : Nat × Nat) : SupState :=
  if is_process_running s.procs e.2 then
    if e.1 < s.streams.length then
      { s with streams := setStatus s.streams e.1 "Sedang Live",
               active := insertA s.active e.1 ⟨e.2, ""⟩ }
    else s
  else
    let s1 := cleanup_stream_files s e.1
    { s1 with active := eraseA s1.active e.1 }

/-- Model of `reconnect_to_existing_streams` (app.py:94-130): iterate over the
directory's pid files (snapshotted before the loop, as `os.listdir` is in
the source).  The `ValueError`/`IOError` branch (unparseable pid file) is
unreachable in the embedding because pid files carry a `Nat`. -/
def reconnect_to_existing_streams (s : SupState) : SupState :=
  s.pidFiles.foldl reconnectOne s

/-- The marker classification of `check_stream_statuses` (app.py:452-457):
`completed` becomes `Selesai`, an `error:` marker is copied verbatim into
the status, anything else becomes `Terputus`. -/
def classify (content : String) : String :=
  if content = "completed" then "Selesai"
  else if strStartsWith content "error:" then content
  else "Terputus"

/-- The body of the loop of `check_stream_statuses` (app.py:432-480) for
row `idx`.  With an active record whose process is dead and the row
`Sedang Live`: if a status marker exists it is classified and removed;
in either case the record is deleted and the transient files cleaned.
Without an active record, a bare `completed` or `error:` marker of a
`Sedang Live` row is folded into the status and the marker removed. -/
def checkOne (s : SupState) (idx : Nat) : SupState :=
  match lookupA s.active idx with
  | some r =>
    if is_process_running s.procs r.pid then s
    else if statusAt s.streams idx = "Sedang Live" then
      let s1 :=
        match lookupA s.statusFiles idx with
        | some content =>
          { s with streams := setStatus s.streams idx (classify content),
                   statusFiles := eraseA s.statusFiles idx }
        | none => s
      let s2 := { s1 with active := eraseA s1.active idx }
      cleanup_stream_files s2 idx
    else s
  | none =>
    match lookupA s.statusFiles idx with
    | some content =>
      if content = "completed" ∧ statusAt s.streams idx = "Sedang Live" then
        { s with streams := setStatus s.streams idx "Selesai",
                 statusFiles := eraseA s.statusFiles idx }
      else if strStartsWith content "error:" ∧ statusAt s.streams idx = "Sedang Live" then
        { s with streams := setStatus s.streams idx content,
                 statusFiles := eraseA s.statusFiles idx }
      else s
    | none => s

/-- Sequential processing of a list of row indices by `checkOne`. -/
def checkGo (s : SupState) : List Nat → SupState
  | [] => s
  | i :: l => checkGo (checkOne s i) l

/-- Model of `check_stream_statuses` (app.py:432-480): one pass over all rows of
the catalog. -/
def check_stream_statuses (s : SupState) : SupState :=
  checkGo s (List.range s.streams.length)

/-- The state effect of `start_stream` (app.py:338-360): the status is set
to `Sedang Live` immediately and an initial `starting` marker is written;
the spawned runner thread (`run_ffmpeg`) later writes the pid file and the
active record, which is why neither appears here. -/
def start_stream (s : SupState) (idx : Nat) : SupState :=
  let s1 := { s with streams := setStatus s.streams idx "Sedang Live" }
  { s1 with statusFiles := insertA s1.statusFiles idx "starting" }

/-- The launch condition of `check_scheduled_streams` (app.py:487):
`row['Status'] == 'Menunggu' and row['Jam Mulai'] == current_time`. -/
def schedCond (s : SupState) (t : String) (i : Nat) : Bool :=
  statusAt s.streams i == "Menunggu" && jamAt s.streams i == t

/-- Sequential processing of rows by the schedule sweep, accumulating the
indices it launched. -/
def schedGo (t : String) (s : SupState) (ls : List Nat) : List Nat → SupState × List Nat
  | [] => (s, ls)
  | i :: l =>
    if schedCond s t i then schedGo t (start_stream s i) (ls ++ [i]) l
    else schedGo t s ls l

/-- Model of `check_scheduled_streams` (app.py:482-490) at wall-clock time `t`
(the source's `datetime.datetime.now().strftime("%H:%M")`): returns the
new state together with the list of launched row indices. -/
def check_scheduled_streams (s : SupState) (t : String) : SupState × List Nat :=
  schedGo t s [] (List.range s.streams.length)

/-- The reconciliation work of one `main()` refresh cycle, in the source's
order: `reconnect_to_existing_streams` (app.py:520) then
`check_stream_statuses` (app.py:539). -/
def reconciliationPass (s : SupState) : SupState :=
  check_stream_statuses (reconnect_to_existing_streams s)

/-- Python truthiness of the resolved pid in `stop_stream`
(`if not pid`, `if pid and ...`): `None` and `0` are falsy. -/
def pidTruthy : Option Nat → Bool
  | none => false
  | some 0 => false
  | some _ => true

/-- The pid resolution of `stop_stream` (app.py:365-375): prefer the
active-streams record; only when that is falsy fall back to the
`stream_<idx>.pid` file. -/
def resolvePid (s : SupState) (idx : Nat) : Option Nat :=
  let p0 : Option Nat := (lookupA s.active idx).map (fun r => r.pid)
  if pidTruthy p0 then p0
  else
    match lookupA s.pidFiles idx with
    | some q => some q
    | none => p0

/-- The branch condition of `stop_stream` (app.py:377):
`if pid and is_process_running(pid)`. -/
def resolvedLive (s : SupState) (idx : Nat) : Bool :=
  match resolvePid s idx with
  | some q => pidTruthy (some q) && is_process_running s.procs q
  | none => false

/-- Model of `os.killpg(getpgid(pid), SIGTERM)` followed by the 2-second grace
interval: every process of group `g` that honours SIGTERM is gone. -/
def applyTermGroup (procs : List (Nat × ProcView)) (g : Nat) : List (Nat × ProcView) :=
  procs.map (fun e =>
    if e.2.pgid = g ∧ e.2.dieOnTerm then (e.1, { e.2 with ex := false, pname := none })
    else e)

/-- Model of `os.killpg(getpgid(pid), SIGKILL)`: every process of group `g` is
gone. -/
def applyKillGroup (procs : List (Nat × ProcView)) (g : Nat) : List (Nat × ProcView) :=
  procs.map (fun e =>
    if e.2.pgid = g then (e.1, { e.2 with ex := false, pname := none })
    else e)

/-- The observable signalling actions of `stop_stream`. -/
inductive StopEvent where
  | sigtermGroup (g : Nat)
  | sleepSec (n : Nat)
  | sigkillGroup (g : Nat)
deriving DecidableEq

/-- Result of `stop_stream`: the new state, the returned boolean, and the
trace of signalling actions. -/
structure StopResult where
  state : SupState
  ok : Bool
  events : List StopEvent
deriving DecidableEq

/-- The `else` branch of `stop_stream` (app.py:415-426): no resolvable
live process; force the status to `Dihentikan`, clean the transient
files, drop any active record, and report success. -/
def stopNoProc (s : SupState) (idx : Nat) : StopResult :=
  let s1 := { s with streams := setStatus s.streams idx "Dihentikan" }
  let s2 := cleanup_stream_files s1 idx
  let s3 := { s2 with active := eraseA s2.active idx }
  ⟨s3, true, []⟩

/-- The kill branch of `stop_stream` (app.py:377-410, posix): SIGTERM to
the whole process group, a 2-second grace wait, SIGKILL only if the
process is still running; then status `Dihentikan`, a transient `stopped`
marker (immediately removed again by `cleanup_stream_files`), record
removal and cleanup. -/
def stopLive (s : SupState) (idx pid : Nat) : StopResult :=
  let g := (procView s.procs pid).pgid
  let procs1 := applyTermGroup s.procs g
  let stillAlive := is_process_running procs1 pid
  let procs2 := if stillAlive then applyKillGroup procs1 g else procs1
  let evs := [StopEvent.sigtermGroup g, StopEvent.sleepSec 2] ++
    (if stillAlive then [StopEvent.sigkillGroup g] else [])
  let s1 := { s with procs := procs2, streams := setStatus s.streams idx "Dihentikan" }
  let s2 := { s1 with statusFiles := insertA s1.statusFiles idx "stopped" }
  let s3 := { s2 with active := eraseA s2.active idx }
  let s4 := cleanup_stream_files s3 idx
  ⟨s4, true, evs⟩

/-- Model of `stop_stream` (app.py:362-430). -/
def stop_stream (s : SupState) (idx : Nat) : StopResult :=
  match resolvePid s idx with
  | some pid =>
    if pid ≠ 0 ∧ is_process_running s.procs pid then stopLive s idx pid
    else stopNoProc s idx
  | none => stopNoProc s idx

/-- Appending one line to `stream_<idx>.log` (mode `"a"` creates the file
when missing). -/
def appendLogA (l : List (Nat × List String)) (idx : Nat) (line : String) :
    List (Nat × List String) :=
  match lookupA l idx with
  | some lines => insertA l idx (lines ++ [line])
  | none => insertA l idx [line]

/-- The primitive file/store operations performed by `run_ffmpeg` after
`process.wait()` returns. -/
inductive FileOp where
  | writeStatus (idx : Nat) (content : String)
  | appendLog (idx : Nat) (line : String)
  | removeActive (idx : Nat)
  | cleanupFiles (idx : Nat)
deriving DecidableEq

/-- State effect of one primitive operation. -/
def applyFileOp (s : SupState) : FileOp → SupState
  | FileOp.writeStatus idx c => { s with statusFiles := insertA s.statusFiles idx c }
  | FileOp.appendLog idx line => { s with logFiles := appendLogA s.logFiles idx line }
  | FileOp.removeActive idx => { s with active := eraseA s.active idx }
  | FileOp.cleanupFiles idx => cleanup_stream_files s idx

/-- The exit bookkeeping of `run_ffmpeg` (app.py:298-336), in source
order: after `process.wait()` returns — for ANY reason, including the
process having been killed by `stop_stream` — the runner writes the
`completed` marker, appends `Streaming completed.`, removes the active
record, and in the `finally` block appends the closing line and cleans
the pid/status files (the log is retained). -/
def runExitOps (idx : Nat) : List FileOp :=
  [ FileOp.writeStatus idx "completed",
    FileOp.appendLog idx "Streaming completed.",
    FileOp.removeActive idx,
    FileOp.appendLog idx "Streaming finished or stopped.",
    FileOp.cleanupFiles idx ]

/-- Running the exit bookkeeping of `run_ffmpeg`: final state plus the
trace of performed operations. -/
def run_ffmpeg_on_exit (s : SupState) (idx : Nat) : SupState × List FileOp :=
  ((runExitOps idx).foldl applyFileOp s, runExitOps idx)

/-- The per-row view of the state that `check_stream_statuses` reads and
writes: the row's status, its active record, its status marker, its pid
file. -/
structure JobView where
  vstatus : String
  varec : Option ActiveRecord
  vmarker : Option String
  vpid : Option Nat
deriving DecidableEq

/-- The view of row `i`. -/
def viewAt (s : SupState) (i : Nat) : JobView :=
  ⟨statusAt s.streams i, lookupA s.active i, lookupA s.statusFiles i, lookupA s.pidFiles i⟩

/-- Effect of `checkOne` on its own row, expressed on the view. -/
def stepView (procs : List (Nat × ProcView)) (v : JobView) : JobView :=
  match v.varec with
  | some r =>
    if is_process_running procs r.pid then v
    else if v.vstatus = "Sedang Live" then
      ⟨(match v.vmarker with
        | some c => classify c
        | none => v.vstatus), none, none, none⟩
    else v
  | none =>
    match v.vmarker with
    | some c =>
      if c = "completed" ∧ v.vstatus = "Sedang Live" then
        ⟨"Selesai", none, none, v.vpid⟩
      else if strStartsWith c "error:" ∧ v.vstatus = "Sedang Live" then
        ⟨c, none, none, v.vpid⟩
      else v
    | none => v

/-- Modelled from the spec: the claimed post-reconciliation invariant,
in the claim's own words — for every job of the catalog, `status ==
Live` exactly when an ActiveJobRecord exists for it and its recorded
process handle is alive. -/
def specLiveInvariant (s : SupState) : Bool :=
  (List.range s.streams.length).all (fun i =>
    (statusAt s.streams i == "Sedang Live") ==
      (match lookupA s.active i with
       | some r => is_process_running s.procs r.pid
       | none => false))

/-- A catalog row with the given status (concrete inputs for the
witnesses and counterexamples below). -/
def mkJob (st : String) : StreamJob :=
  ⟨"video.mp4", "01:00:00", "09:00", "key123", st, false, "720p"⟩

/-- A live ffmpeg process in group `g` that does (or does not) honour
SIGTERM. -/
def ffproc (g : Nat) (dies : Bool) : ProcView := ⟨true, some "ffmpeg", g, dies⟩

/-- Concrete state: one Live row, no active record, no files, no
processes. -/
def sC1x : SupState := ⟨[mkJob "Sedang Live"], [], [], [], [], []⟩

/-- Concrete state: one Live row whose pid file points at a live ffmpeg
process, so reattachment restores the active record. -/
def sC1w : SupState := ⟨[mkJob "Sedang Live"], [], [(0, 7)], [], [], [(7, ffproc 7 true)]⟩

/-- Concrete state: one Live row with an active record for dead pid 9 and
no status marker file. -/
def sC2x : SupState := ⟨[mkJob "Sedang Live"], [(0, ⟨9, ""⟩)], [], [], [], []⟩

/-- Concrete state: one Live row with an active record for dead pid 9 and
a `completed` status marker. -/
def sC2w : SupState :=
  ⟨[mkJob "Sedang Live"], [(0, ⟨9, ""⟩)], [(0, 9)], [(0, "completed")], [], []⟩

/-- Concrete state: one Live row streaming on live pid 7 (record, pid
file, marker and log present). -/
def sC3x : SupState :=
  ⟨[mkJob "Sedang Live"], [(0, ⟨7, ""⟩)], [(0, 7)], [(0, "streaming")],
   [(0, ["log start"])], [(7, ffproc 7 true)]⟩

/-- Concrete state: one Live row with no active record and no files. -/
def sC4w : SupState := ⟨[mkJob "Sedang Live"], [], [], [], [], []⟩

/-- Concrete state: one Waiting row scheduled for 09:00. -/
def sC5w : SupState := ⟨[mkJob "Menunggu"], [], [], [], [], []⟩

/-- Concrete process table: pid 5 is alive and its name contains
`ffmpeg` after lowercasing. -/
def procsC8 : List (Nat × ProcView) := [(5, ⟨true, some "FFmpeg-bin", 3, true⟩)]

/-- Concrete state: active record pid 7 and a pid file with a different
pid 8, both alive; 7 honours SIGTERM. -/
def sC9w : SupState :=
  ⟨[mkJob "Sedang Live"], [(0, ⟨7, ""⟩)], [(0, 8)], [(0, "streaming")], [],
   [(7, ffproc 7 true), (8, ffproc 8 true)]⟩

/-- Concrete state: active record pid 7, alive, ignoring SIGTERM (so the
stop must escalate to SIGKILL). -/
def sC9k : SupState := ⟨[mkJob "Sedang Live"], [(0, ⟨7, ""⟩)], [], [], [], [(7, ffproc 7 false)]⟩

theorem eraseA_cons {κ α : Type} [DecidableEq κ] (hd : κ × α) (t : List (κ × α)) (k : κ) :
    eraseA (hd :: t) k = if hd.1 = k then eraseA t k else hd :: eraseA t k := by
  by_cases hk : hd.1 = k <;> simp [eraseA, List.filter_cons, hk]

theorem lookupA_cons {κ α : Type} [DecidableEq κ] (hd : κ × α) (t : List (κ × α)) (k : κ) :
    lookupA (hd :: t) k = if hd.1 = k then some hd.2 else lookupA t k := rfl

theorem lookupA_eraseA_self {κ α : Type} [DecidableEq κ] (l : List (κ × α)) (k : κ) :
    lookupA (eraseA l k) k = none := by
  induction l with
  | nil => rfl
  | cons hd t ih =>
    rw [eraseA_cons]
    by_cases hk : hd.1 = k
    · simpa [hk] using ih
    · simpa [lookupA_cons, hk] using ih

theorem lookupA_eraseA_ne {κ α : Type} [DecidableEq κ] (l : List (κ × α)) (k k' : κ)
    (h : k' ≠ k) : lookupA (eraseA l k) k' = lookupA l k' := by
  induction l with
  | nil => rfl
  | cons hd t ih =>
    rw [eraseA_cons]
    by_cases hk : hd.1 = k
    · have hne : ¬ hd.1 = k' := by
        rw [hk]
        exact fun hc => h hc.symm
      rw [if_pos hk, lookupA_cons, if_neg hne]
      exact ih
    · rw [if_neg hk, lookupA_cons, lookupA_cons]
      by_cases hk' : hd.1 = k'
      · rw [if_pos hk', if_pos hk']
      · rw [if_neg hk', if_neg hk']
        exact ih

theorem lookupA_insertA_self {κ α : Type} [DecidableEq κ] (l : List (κ × α)) (k : κ) (v : α) :
    lookupA (insertA l k v) k = some v := by
  simp [insertA, lookupA_cons]

theorem lookupA_insertA_ne {κ α : Type} [DecidableEq κ] (l : List (κ × α)) (k k' : κ) (v : α)
    (h : k' ≠ k) : lookupA (insertA l k v) k' = lookupA l k' := by
  have hkk : ¬ k = k' := fun hc => h hc.symm
  rw [insertA, lookupA_cons, if_neg hkk]
  exact lookupA_eraseA_ne l k k' h

theorem length_setStatus (l : List StreamJob) (i : Nat) (st : String) :
    (setStatus l i st).length = l.length := by
  unfold setStatus
  cases l[i]? with
  | none => rfl
  | some j => simp

theorem statusAt_setStatus_self (l : List StreamJob) (i : Nat) (st : String)
    (h : i < l.length) : statusAt (setStatus l i st) i = st := by
  unfold setStatus statusAt
  rw [List.getElem?_eq_getElem h]
  simp [List.getElem?_set_self', List.getElem?_eq_getElem h]

theorem statusAt_setStatus_ne (l : List StreamJob) (i j : Nat) (st : String)
    (h : i ≠ j) : statusAt (setStatus l j st) i = statusAt l i := by
  unfold setStatus statusAt
  cases hg : l[j]? with
  | none => rfl
  | some x => rw [List.getElem?_set_ne (fun hc => h hc.symm)]

theorem jamAt_setStatus (l : List StreamJob) (i j : Nat) (st : String) :
    jamAt (setStatus l j st) i = jamAt l i := by
  unfold setStatus jamAt
  cases hg : l[j]? with
  | none => rfl
  | some x =>
    by_cases hij : i = j
    · subst hij
      simp [List.getElem?_set_self', hg]
    · rw [List.getElem?_set_ne (fun hc => hij hc.symm)]

theorem statusAt_lt (l : List StreamJob) (i : Nat) (h : statusAt l i ≠ "") :
    i < l.length := by
  by_contra hc
  unfold statusAt at h
  rw [List.getElem?_eq_none (Nat.le_of_not_lt hc)] at h
  exact h rfl

theorem checkOne_procs (s : SupState) (j : Nat) : (checkOne s j).procs = s.procs := by
  unfold checkOne cleanup_stream_files
  split
  · split
    · rfl
    · split
      · split <;> rfl
      · rfl
  · split
    · split
      · rfl
      · split <;> rfl
    · rfl

theorem checkOne_length (s : SupState) (j : Nat) :
    (checkOne s j).streams.length = s.streams.length := by
  unfold checkOne cleanup_stream_files
  split
  · split
    · rfl
    · split
      · split <;> simp [length_setStatus]
      · rfl
  · split
    · split
      · simp [length_setStatus]
      · split
        · simp [length_setStatus]
        · rfl
    · rfl

theorem viewAt_checkOne_ne (s : SupState) (i j : Nat) (h : i ≠ j) :
    viewAt (checkOne s j) i = viewAt s i := by
  unfold checkOne
  cases h1 : lookupA s.active j with
  | some r =>
    cases h2 : is_process_running s.procs r.pid with
    | true => simp [h1, h2]
    | false =>
      by_cases h3 : statusAt s.streams j = "Sedang Live"
      · cases h4 : lookupA s.statusFiles j with
        | some c =>
          simp [h1, h2, h3, h4, viewAt, cleanup_stream_files,
                statusAt_setStatus_ne s.streams i j _ h,
                lookupA_eraseA_ne _ j i h]
        | none =>
          simp [h1, h2, h3, h4, viewAt, cleanup_stream_files,
                lookupA_eraseA_ne _ j i h]
      · simp [h1, h2, h3]
  | none =>
    cases h2 : lookupA s.statusFiles j with
    | some c =>
      by_cases h3 : c = "completed" ∧ statusAt s.streams j = "Sedang Live"
      · simp [h1, h2, h3, viewAt, statusAt_setStatus_ne s.streams i j _ h,
              lookupA_eraseA_ne _ j i h]
      · by_cases h4 : strStartsWith c "error:" ∧ statusAt s.streams j = "Sedang Live"
        · have hc : ¬ c = "completed" := fun hcc => h3 ⟨hcc, h4.2⟩
          simp [h1, h2, h3, h4, hc, viewAt, statusAt_setStatus_ne s.streams i j _ h,
                lookupA_eraseA_ne _ j i h]
        · simp [h1, h2, h3, h4]
    | none => simp [h1, h2]

theorem viewAt_checkOne_self (s : SupState) (i : Nat) (h : i < s.streams.length) :
    viewAt (checkOne s i) i = stepView s.procs (viewAt s i) := by
  unfold checkOne stepView viewAt
  cases h1 : lookupA s.active i with
  | some r =>
    cases h2 : is_process_running s.procs r.pid with
    | true => simp [h1, h2]
    | false =>
      by_cases h3 : statusAt s.streams i = "Sedang Live"
      · cases h4 : lookupA s.statusFiles i with
        | some c =>
          simp [h1, h2, h3, h4, cleanup_stream_files,
                statusAt_setStatus_self s.streams i _ h, lookupA_eraseA_self]
        | none =>
          simp [h1, h2, h3, h4, cleanup_stream_files, lookupA_eraseA_self]
      · simp [h1, h2, h3]
  | none =>
    cases h2 : lookupA s.statusFiles i with
    | some c =>
      by_cases h3 : c = "completed" ∧ statusAt s.streams i = "Sedang Live"
      · simp [h1, h2, h3, statusAt_setStatus_self s.streams i _ h, lookupA_eraseA_self]
      · by_cases h4 : strStartsWith c "error:" ∧ statusAt s.streams i = "Sedang Live"
        · have hc : ¬ c = "completed" := fun hcc => h3 ⟨hcc, h4.2⟩
          simp [h1, h2, h3, h4, hc, statusAt_setStatus_self s.streams i _ h, lookupA_eraseA_self]
        · simp [h1, h2, h3, h4]
    | none => simp [h1, h2]

theorem checkGo_procs : ∀ (l : List Nat) (s : SupState), (checkGo s l).procs = s.procs := by
  intro l
  induction l with
  | nil => intro s; rfl
  | cons j t ih =>
    intro s
    simp only [checkGo]
    rw [ih (checkOne s j), checkOne_procs]

theorem checkGo_length : ∀ (l : List Nat) (s : SupState),
    (checkGo s l).streams.length = s.streams.length := by
  intro l
  induction l with
  | nil => intro s; rfl
  | cons j t ih =>
    intro s
    simp only [checkGo]
    rw [ih (checkOne s j), checkOne_length]

theorem viewAt_checkGo_not_mem : ∀ (l : List Nat) (s : SupState) (i : Nat), i ∉ l →
    viewAt (checkGo s l) i = viewAt s i := by
  intro l
  induction l with
  | nil => intro s i _; rfl
  | cons j t ih =>
    intro s i hni
    simp only [checkGo]
    have hij : i ≠ j := fun hc => hni (hc ▸ List.mem_cons_self j t)
    have hnt : i ∉ t := fun hc => hni (List.mem_cons_of_mem j hc)
    rw [ih (checkOne s j) i hnt, viewAt_checkOne_ne s i j hij]

theorem viewAt_checkGo_mem : ∀ (l : List Nat) (s : SupState) (i : Nat), l.Nodup → i ∈ l →
    i < s.streams.length → viewAt (checkGo s l) i = stepView s.procs (viewAt s i) := by
  intro l
  induction l with
  | nil =>
    intro s i _ hmem _
    cases hmem
  | cons j t ih =>
    intro s i hnd hmem hlt
    simp only [checkGo]
    by_cases hij : i = j
    · subst hij
      have hnotin : i ∉ t := (List.nodup_cons.mp hnd).1
      rw [viewAt_checkGo_not_mem t (checkOne s i) i hnotin, viewAt_checkOne_self s i hlt]
    · have hmt : i ∈ t := (List.mem_cons.mp hmem).resolve_left hij
      have hlt' : i < (checkOne s j).streams.length := by
        rw [checkOne_length]
        exact hlt
      rw [ih (checkOne s j) i (List.nodup_cons.mp hnd).2 hmt hlt',
          viewAt_checkOne_ne s i j hij, checkOne_procs]

theorem viewAt_check (s : SupState) (i : Nat) (h : i < s.streams.length) :
    viewAt (check_stream_statuses s) i = stepView s.procs (viewAt s i) := by
  unfold check_stream_statuses
  exact viewAt_checkGo_mem _ s i (List.nodup_range _) (List.mem_range.mpr h) h

theorem check_procs (s : SupState) : (check_stream_statuses s).procs = s.procs :=
  checkGo_procs _ s

theorem check_length (s : SupState) :
    (check_stream_statuses s).streams.length = s.streams.length :=
  checkGo_length _ s

theorem start_stream_streams (s : SupState) (j : Nat) :
    (start_stream s j).streams = setStatus s.streams j "Sedang Live" := rfl

theorem start_stream_length (s : SupState) (j : Nat) :
    (start_stream s j).streams.length = s.streams.length := by
  rw [start_stream_streams, length_setStatus]

theorem schedCond_lt (s : SupState) (t : String) (i : Nat) (h : schedCond s t i = true) :
    i < s.streams.length := by
  apply statusAt_lt
  have hm : statusAt s.streams i = "Menunggu" := by
    have := (Bool.and_eq_true _ _).mp h
    exact eq_of_beq this.1
  rw [hm]
  decide

theorem statusAt_start_self (s : SupState) (t : String) (i : Nat)
    (h : schedCond s t i = true) :
    statusAt (start_stream s i).streams i = "Sedang Live" := by
  rw [start_stream_streams]
  exact statusAt_setStatus_self _ _ _ (schedCond_lt s t i h)

theorem schedCond_start_ne (s : SupState) (t' : String) (i j : Nat) (h : i ≠ j) :
    schedCond (start_stream s j) t' i = schedCond s t' i := by
  unfold schedCond
  rw [start_stream_streams, statusAt_setStatus_ne _ _ _ _ h, jamAt_setStatus]

theorem schedCond_after_start (s : SupState) (t t' : String) (i : Nat)
    (h : schedCond s t i = true) :
    schedCond (start_stream s i) t' i = false := by
  unfold schedCond
  rw [statusAt_start_self s t i h]
  rfl

theorem schedGo_length : ∀ (l : List Nat) (t : String) (s : SupState) (ls : List Nat),
    (schedGo t s ls l).1.streams.length = s.streams.length := by
  intro l
  induction l with
  | nil => intro t s ls; rfl
  | cons j r ih =>
    intro t s ls
    simp only [schedGo]
    by_cases hc : schedCond s t j = true
    · rw [if_pos hc, ih, start_stream_length]
    · rw [if_neg hc, ih]

theorem schedGo_status : ∀ (l : List Nat) (t : String) (s : SupState) (ls : List Nat) (i : Nat),
    statusAt (schedGo t s ls l).1.streams i =
      if i ∈ l ∧ schedCond s t i = true then "Sedang Live" else statusAt s.streams i := by
  intro l
  induction l with
  | nil =>
    intro t s ls i
    simp [schedGo]
  | cons j r ih =>
    intro t s ls i
    simp only [schedGo]
    by_cases hc : schedCond s t j = true
    · rw [if_pos hc]
      by_cases hij : i = j
      · subst hij
        rw [ih]
        by_cases hmem : i ∈ r ∧ schedCond (start_stream s i) t i = true
        · rw [if_pos hmem]
          simp [hc, List.mem_cons]
        · rw [if_neg hmem, statusAt_start_self s t i hc]
          simp [hc, List.mem_cons]
      · rw [ih]
        rw [schedCond_start_ne s t i j hij, start_stream_streams,
            statusAt_setStatus_ne _ _ _ _ hij]
        by_cases hm2 : i ∈ r ∧ schedCond s t i = true
        · rw [if_pos hm2, if_pos ⟨List.mem_cons_of_mem j hm2.1, hm2.2⟩]
        · rw [if_neg hm2,
              if_neg (fun hcon => hm2 ⟨(List.mem_cons.mp hcon.1).resolve_left hij, hcon.2⟩)]
    · rw [if_neg hc]
      rw [ih]
      by_cases hij : i = j
      · subst hij
        have hco : ¬ (schedCond s t i = true) := hc
        simp [hco]
      · by_cases hm2 : i ∈ r ∧ schedCond s t i = true
        · rw [if_pos hm2, if_pos ⟨List.mem_cons_of_mem j hm2.1, hm2.2⟩]
        · rw [if_neg hm2,
              if_neg (fun hcon => hm2 ⟨(List.mem_cons.mp hcon.1).resolve_left hij, hcon.2⟩)]

theorem schedGo_mem : ∀ (l : List Nat) (t : String) (s : SupState) (ls : List Nat) (i : Nat),
    i ∈ (schedGo t s ls l).2 ↔ i ∈ ls ∨ (i ∈ l ∧ schedCond s t i = true) := by
  intro l
  induction l with
  | nil =>
    intro t s ls i
    simp [schedGo]
  | cons j r ih =>
    intro t s ls i
    simp only [schedGo]
    by_cases hc : schedCond s t j = true
    · rw [if_pos hc, ih]
      by_cases hij : i = j
      · subst hij
        simp [List.mem_append, hc, List.mem_cons]
      · rw [schedCond_start_ne s t i j hij]
        simp [List.mem_append, List.mem_cons, hij]
    · rw [if_neg hc, ih]
      by_cases hij : i = j
      · subst hij
        have hco : ¬ (schedCond s t i = true) := hc
        simp [List.mem_cons, hco]
      · simp [List.mem_cons, hij]

theorem lookupA_appendLogA_self (l : List (Nat × List String)) (idx : Nat) (line : String) :
    lookupA (appendLogA l idx line) idx = some ((lookupA l idx).getD [] ++ [line]) := by
  unfold appendLogA
  cases h : lookupA l idx with
  | none => simp [h, lookupA_insertA_self]
  | some lines => simp [h, lookupA_insertA_self]

theorem stepView_no_stale (procs : List (Nat × ProcView)) (v : JobView) (r : ActiveRecord)
    (h1 : (stepView procs v).vstatus = "Sedang Live")
    (h2 : (stepView procs v).varec = some r) :
    is_process_running procs r.pid = true := by
  obtain ⟨vs, va, vm, vp⟩ := v
  cases va with
  | some r0 =>
    by_cases hrun : is_process_running procs r0.pid = true
    · have hr : r0 = r := by
        simpa [stepView, hrun] using h2
      subst hr
      exact hrun
    · by_cases hst : vs = "Sedang Live"
      · simp [stepView, hrun, hst] at h2
      · simp [stepView, hrun, hst] at h1
  | none =>
    cases vm with
    | some c =>
      by_cases hc1 : c = "completed" ∧ vs = "Sedang Live"
      · simp [stepView, hc1] at h2
      · by_cases hc2 : strStartsWith c "error:" = true ∧ vs = "Sedang Live"
        · by_cases hcc : c = "completed"
          · simp [stepView, hcc, hc2.2] at h2
          · simp [stepView, hc1, hc2, hcc] at h2
        · simp [stepView, hc1, hc2] at h2
    | none => simp [stepView] at h2

/-- C6: the quality-profile mapping is a pure total function: each of the
six tier/orientation pairs (low = "480p", medium = "720p", high = "1080p";
normal = `is_shorts = false`, vertical = `is_shorts = true`) yields
exactly the fixed table's tuple — low 1000k/96k/1100k/2200k/854x480,
medium 2500k/128k/2750k/5500k/1280x720, high 4500k/192k/4950k/9900k/
1920x1080 — with width and height swapped when vertical and framerate 30
in every case, and the six resulting tuples are pairwise distinct. -/
theorem c6_quality_profile_table :
    get_quality_settings "480p" false = ⟨"1000k", "96k", "1100k", "2200k", "854:480", "30"⟩ ∧
    get_quality_settings "480p" true = ⟨"1000k", "96k", "1100k", "2200k", "480:854", "30"⟩ ∧
    get_quality_settings "720p" false = ⟨"2500k", "128k", "2750k", "5500k", "1280:720", "30"⟩ ∧
    get_quality_settings "720p" true = ⟨"2500k", "128k", "2750k", "5500k", "720:1280", "30"⟩ ∧
    get_quality_settings "1080p" false = ⟨"4500k", "192k", "4950k", "9900k", "1920:1080", "30"⟩ ∧
    get_quality_settings "1080p" true = ⟨"4500k", "192k", "4950k", "9900k", "1080:1920", "30"⟩ ∧
    [get_quality_settings "480p" false, get_quality_settings "480p" true,
     get_quality_settings "720p" false, get_quality_settings "720p" true,
     get_quality_settings "1080p" false, get_quality_settings "1080p" true].Nodup := by
  decide

/-- C10: any quality string outside {"480p", "720p", "1080p"} is not
rejected: `settings.get(quality, settings["720p"])` silently falls back
to the medium (720p) profile for both orientations. -/
theorem c10_unknown_quality_defaults (q : String) (s : Bool)
    (h1 : q ≠ "480p") (h2 : q ≠ "720p") (h3 : q ≠ "1080p") :
    get_quality_settings q s = get_quality_settings "720p" s := by
  have g1 : ¬ ("480p" = q) := fun hc => h1 hc.symm
  have g2 : ¬ ("720p" = q) := fun hc => h2 hc.symm
  have g3 : ¬ ("1080p" = q) := fun hc => h3 hc.symm
  unfold get_quality_settings settingsTable
  simp [lookupA, g1, g2, g3]

/-- Witness for C10 at the concrete unknown quality string "999p". -/
theorem c10_unknown_quality_defaults_witness :
    ("999p" : String) ≠ "480p" ∧ ("999p" : String) ≠ "720p" ∧ ("999p" : String) ≠ "1080p" ∧
    get_quality_settings "999p" false = get_quality_settings "720p" false :=
  ⟨by decide, by decide, by decide,
   c10_unknown_quality_defaults "999p" false (by decide) (by decide) (by decide)⟩

/-- C7: loading the durable catalog or the active-jobs mapping never
propagates an error (both loaders are total functions of the read
outcome): a missing file or a failed read/parse yields the empty catalog
with the fixed seven-column schema, respectively the empty mapping. -/
theorem c7_load_failure_defaults :
    load_persistent_streams none = emptyCatalog ∧
    load_persistent_streams (some (Except.error ())) = emptyCatalog ∧
    emptyCatalog.columns = fixedColumns ∧
    emptyCatalog.rows = [] ∧
    load_active_streams none = [] ∧
    load_active_streams (some (Except.error ())) = [] :=
  ⟨rfl, rfl, rfl, rfl, rfl, rfl⟩

/-- C8: `is_process_running` answers `true` only if the OS reports the
pid as existing and the process name contains the encoder binary name
`ffmpeg` (case-insensitively); for a pid that does not exist, or whose
`Process`/`name()` access raises, it returns `false` — and being a total
function it can never raise itself. -/
theorem c8_is_process_running_safe (procs : List (Nat × ProcView)) (pid : Nat) :
    (is_process_running procs pid = true →
      (procView procs pid).ex = true ∧
      ∃ n, (procView procs pid).pname = some n ∧ strContains (pyLower n) "ffmpeg" = true) ∧
    ((procView procs pid).ex = false → is_process_running procs pid = false) ∧
    ((procView procs pid).pname = none → is_process_running procs pid = false) := by
  refine ⟨?_, ?_, ?_⟩
  · intro h
    unfold is_process_running at h
    rcases Bool.and_eq_true_iff.mp h with ⟨hex, hmatch⟩
    refine ⟨hex, ?_⟩
    cases hn : (procView procs pid).pname with
    | none =>
      rw [hn] at hmatch
      cases hmatch
    | some n =>
      rw [hn] at hmatch
      exact ⟨n, rfl, hmatch⟩
  · intro h
    unfold is_process_running
    simp [h]
  · intro h
    unfold is_process_running
    simp [h]

/-- Witness for C8 on a concrete process table: pid 5 is an alive process
named "FFmpeg-bin", so the check succeeds and indeed the OS reports it
existing. -/
theorem c8_is_process_running_safe_witness :
    is_process_running procsC8 5 = true ∧ (procView procsC8 5).ex = true :=
  ⟨by decide, ((c8_is_process_running_safe procsC8 5).1 (by decide)).1⟩

/-- C4: stopping a job for which no live process handle can be resolved
(the resolved pid is absent, falsy, or not a running ffmpeg process)
still succeeds with no error: `stop_stream` returns `True`, sends no
signals, forces the row's status to `Dihentikan` (Stopped), removes any
active record, and cleans the pid/status artifacts.  In particular a
second stop right after a successful stop satisfies the hypothesis
again, so stopping is idempotent. -/
theorem c4_stop_without_live_handle (s : SupState) (idx : Nat)
    (hlen : idx < s.streams.length) (h : resolvedLive s idx = false) :
    (stop_stream s idx).ok = true ∧
    (stop_stream s idx).events = [] ∧
    statusAt (stop_stream s idx).state.streams idx = "Dihentikan" ∧
    lookupA (stop_stream s idx).state.active idx = none ∧
    lookupA (stop_stream s idx).state.pidFiles idx = none ∧
    lookupA (stop_stream s idx).state.statusFiles idx = none := by
  have hstop : stop_stream s idx = stopNoProc s idx := by
    unfold stop_stream
    unfold resolvedLive at h
    cases hres : resolvePid s idx with
    | none => rfl
    | some q =>
      rw [hres] at h
      have h' : (pidTruthy (some q) && is_process_running s.procs q) = false := h
      have hneg : ¬ (q ≠ 0 ∧ is_process_running s.procs q = true) := by
        intro hcon
        have hpt : pidTruthy (some q) = true := by
          cases q with
          | zero => exact absurd rfl hcon.1
          | succ n => rfl
        rw [hpt, hcon.2] at h'
        cases h'
      change (if q ≠ 0 ∧ is_process_running s.procs q = true then stopLive s idx q
              else stopNoProc s idx) = stopNoProc s idx
      rw [if_neg hneg]
  rw [hstop]
  unfold stopNoProc cleanup_stream_files
  refine ⟨rfl, rfl, ?_, ?_, ?_, ?_⟩
  · exact statusAt_setStatus_self _ _ _ hlen
  · exact lookupA_eraseA_self _ _
  · exact lookupA_eraseA_self _ _
  · exact lookupA_eraseA_self _ _

/-- Witness for C4 at a concrete Live row with no record and no pid file,
followed by a second stop of the already-stopped job: both calls succeed
and leave the job Stopped with no residue. -/
theorem c4_stop_without_live_handle_witness :
    resolvedLive sC4w 0 = false ∧
    (stop_stream sC4w 0).ok = true ∧
    statusAt (stop_stream sC4w 0).state.streams 0 = "Dihentikan" ∧
    resolvedLive (stop_stream sC4w 0).state 0 = false ∧
    (stop_stream (stop_stream sC4w 0).state 0).ok = true ∧
    statusAt (stop_stream (stop_stream sC4w 0).state 0).state.streams 0 = "Dihentikan" ∧
    lookupA (stop_stream (stop_stream sC4w 0).state 0).state.active 0 = none :=
  ⟨by decide,
   (c4_stop_without_live_handle sC4w 0 (by decide) (by decide)).1,
   (c4_stop_without_live_handle sC4w 0 (by decide) (by decide)).2.2.1,
   by decide,
   (c4_stop_without_live_handle (stop_stream sC4w 0).state 0 (by decide) (by decide)).1,
   (c4_stop_without_live_handle (stop_stream sC4w 0).state 0 (by decide) (by decide)).2.2.1,
   (c4_stop_without_live_handle (stop_stream sC4w 0).state 0 (by decide) (by decide)).2.2.2.1⟩

/-- C9: stopping a job with a resolvable live handle resolves the pid
preferring the active record (falling back to the pid file only when the
record pid is falsy), sends SIGTERM to the whole process group, waits the
2-second grace interval, escalates to SIGKILL only if the process is
still running afterwards, and then sets the status to `Dihentikan`
(Stopped), removes the active record and cleans the pid/status
artifacts, returning success. -/
theorem c9_stop_graceful_escalation (s : SupState) (idx p : Nat)
    (hlen : idx < s.streams.length) (hres : resolvePid s idx = some p) (hp : p ≠ 0)
    (hrun : is_process_running s.procs p = true) :
    (stop_stream s idx).ok = true ∧
    (stop_stream s idx).events =
      [StopEvent.sigtermGroup ((procView s.procs p).pgid), StopEvent.sleepSec 2] ++
      (if is_process_running (applyTermGroup s.procs ((procView s.procs p).pgid)) p
       then [StopEvent.sigkillGroup ((procView s.procs p).pgid)] else []) ∧
    statusAt (stop_stream s idx).state.streams idx = "Dihentikan" ∧
    lookupA (stop_stream s idx).state.active idx = none ∧
    lookupA (stop_stream s idx).state.pidFiles idx = none ∧
    lookupA (stop_stream s idx).state.statusFiles idx = none ∧
    (∀ r0, lookupA s.active idx = some r0 → r0.pid ≠ 0 → p = r0.pid) := by
  have hstop : stop_stream s idx = stopLive s idx p := by
    unfold stop_stream
    rw [hres]
    change (if p ≠ 0 ∧ is_process_running s.procs p = true then stopLive s idx p
            else stopNoProc s idx) = stopLive s idx p
    rw [if_pos ⟨hp, hrun⟩]
  rw [hstop]
  unfold stopLive cleanup_stream_files
  refine ⟨rfl, rfl, ?_, ?_, ?_, ?_, ?_⟩
  · exact statusAt_setStatus_self _ _ _ hlen
  · exact lookupA_eraseA_self _ _
  · exact lookupA_eraseA_self _ _
  · exact lookupA_eraseA_self _ _
  · intro r0 h0 hne
    unfold resolvePid at hres
    rw [h0] at hres
    have hpt : pidTruthy (some r0.pid) = true := by
      cases hrp : r0.pid with
      | zero => exact absurd hrp hne
      | succ n => rfl
    simp only [Option.map_some', hpt, if_true] at hres
    exact (Option.some.inj hres).symm

/-- Witness for C9, twice: on `sC9w` the record pid 7 is preferred over
the pid file's 8 and SIGTERM suffices (no SIGKILL event); on `sC9k` the
process ignores SIGTERM, so the trace escalates to SIGKILL.  Both runs
leave the row Stopped with the record removed. -/
theorem c9_stop_graceful_escalation_witness :
    resolvePid sC9w 0 = some 7 ∧ is_process_running sC9w.procs 7 = true ∧
    (stop_stream sC9w 0).ok = true ∧
    (stop_stream sC9w 0).events = [StopEvent.sigtermGroup 7, StopEvent.sleepSec 2] ∧
    statusAt (stop_stream sC9w 0).state.streams 0 = "Dihentikan" ∧
    (stop_stream sC9k 0).events =
      [StopEvent.sigtermGroup 7, StopEvent.sleepSec 2, StopEvent.sigkillGroup 7] ∧
    lookupA (stop_stream sC9k 0).state.active 0 = none := by
  refine ⟨by decide, by decide, ?_, ?_, ?_, ?_, ?_⟩
  · exact (c9_stop_graceful_escalation sC9w 0 7 (by decide) (by decide) (by decide)
      (by decide)).1
  · have h := (c9_stop_graceful_escalation sC9w 0 7 (by decide) (by decide) (by decide)
      (by decide)).2.1
    rw [h]
    decide
  · exact (c9_stop_graceful_escalation sC9w 0 7 (by decide) (by decide) (by decide)
      (by decide)).2.2.1
  · have h := (c9_stop_graceful_escalation sC9k 0 7 (by decide) (by decide) (by decide)
      (by decide)).2.1
    rw [h]
    decide
  · exact (c9_stop_graceful_escalation sC9k 0 7 (by decide) (by decide) (by decide)
      (by decide)).2.2.2.1

/-- C3 (amended): when `process.wait()` returns, the runner's exit
bookkeeping UNCONDITIONALLY writes the `completed` status marker — even
when the exit was caused by a deliberate stop — then appends the closing
log line, removes the active record, and deletes the pid/status
artifacts while retaining (and extending) the log; it never touches the
catalog status, which is why a deliberate stop still ends as Stopped
(the status set by `stop_stream`) rather than Finished. -/
theorem c3_exit_bookkeeping (s : SupState) (idx : Nat) :
    FileOp.writeStatus idx "completed" ∈ (run_ffmpeg_on_exit s idx).2 ∧
    FileOp.appendLog idx "Streaming finished or stopped." ∈ (run_ffmpeg_on_exit s idx).2 ∧
    lookupA (run_ffmpeg_on_exit s idx).1.active idx = none ∧
    lookupA (run_ffmpeg_on_exit s idx).1.pidFiles idx = none ∧
    lookupA (run_ffmpeg_on_exit s idx).1.statusFiles idx = none ∧
    lookupA (run_ffmpeg_on_exit s idx).1.logFiles idx =
      some ((lookupA s.logFiles idx).getD [] ++
        ["Streaming completed.", "Streaming finished or stopped."]) ∧
    statusAt (run_ffmpeg_on_exit s idx).1.streams idx = statusAt s.streams idx := by
  unfold run_ffmpeg_on_exit runExitOps
  simp only [List.foldl_cons, List.foldl_nil, applyFileOp, cleanup_stream_files]
  refine ⟨by simp, by simp, ?_, ?_, ?_, ?_, ?_⟩
  · exact lookupA_eraseA_self _ _
  · exact lookupA_eraseA_self _ _
  · exact lookupA_eraseA_self _ _
  · rw [lookupA_appendLogA_self, lookupA_appendLogA_self]
    simp [List.append_assoc]
  · trivial

/-- Counterexample to C3 as stated: on `sC3x` a deliberate stop succeeds
and leaves the job Stopped, yet the runner's exit bookkeeping (woken by
the killed child) still writes the `completed` marker — both in its
operation trace and to the status file at the moment of the write — so
"writes completed only if the process exited rather than being
deliberately stopped" is false; the job nevertheless ends Stopped, not
Finished. -/
theorem c3_completed_after_stop_counterexample :
    (stop_stream sC3x 0).ok = true ∧
    statusAt (stop_stream sC3x 0).state.streams 0 = "Dihentikan" ∧
    FileOp.writeStatus 0 "completed" ∈ (run_ffmpeg_on_exit (stop_stream sC3x 0).state 0).2 ∧
    lookupA (applyFileOp (stop_stream sC3x 0).state
      (FileOp.writeStatus 0 "completed")).statusFiles 0 = some "completed" ∧
    statusAt (run_ffmpeg_on_exit (stop_stream sC3x 0).state 0).1.streams 0 = "Dihentikan" := by
  decide

/-- C5: the schedule sweep at wall-clock minute `t` launches a job
exactly when it is Waiting (`Menunggu`) and its `Jam Mulai` equals `t`;
a launch immediately sets the status to `Sedang Live`, so the same job
is launched at most once for the matching minute and is never
re-triggered by any later sweep (at the same or any other minute). -/
theorem c5_schedule_sweep_once (s : SupState) (t t' : String) (i : Nat) :
    (i ∈ (check_scheduled_streams s t).2 ↔
      i < s.streams.length ∧ statusAt s.streams i = "Menunggu" ∧ jamAt s.streams i = t) ∧
    (i ∈ (check_scheduled_streams s t).2 →
      statusAt (check_scheduled_streams s t).1.streams i = "Sedang Live") ∧
    (i ∈ (check_scheduled_streams s t).2 →
      i ∉ (check_scheduled_streams (check_scheduled_streams s t).1 t').2) := by
  have hmem : ∀ (u : SupState) (tt : String), i ∈ (check_scheduled_streams u tt).2 ↔
      (i ∈ List.range u.streams.length ∧ schedCond u tt i = true) := by
    intro u tt
    unfold check_scheduled_streams
    rw [schedGo_mem]
    simp
  have hstat : i ∈ (check_scheduled_streams s t).2 →
      statusAt (check_scheduled_streams s t).1.streams i = "Sedang Live" := by
    intro hmm
    have hc : schedCond s t i = true := ((hmem s t).mp hmm).2
    have hl : i ∈ List.range s.streams.length := ((hmem s t).mp hmm).1
    unfold check_scheduled_streams
    rw [schedGo_status, if_pos ⟨hl, hc⟩]
  refine ⟨?_, hstat, ?_⟩
  · rw [hmem s t]
    constructor
    · rintro ⟨hl, hc⟩
      refine ⟨List.mem_range.mp hl, ?_, ?_⟩
      · exact eq_of_beq (Bool.and_eq_true_iff.mp hc).1
      · exact eq_of_beq (Bool.and_eq_true_iff.mp hc).2
    · rintro ⟨hl, hstt, hjam⟩
      refine ⟨List.mem_range.mpr hl, ?_⟩
      unfold schedCond
      rw [hstt, hjam]
      simp
  · intro hmm him2
    have hst := hstat hmm
    have hc2 : schedCond (check_scheduled_streams s t).1 t' i = true :=
      ((hmem _ t').mp him2).2
    unfold schedCond at hc2
    rw [hst] at hc2
    have hfalse : (("Sedang Live" : String) == "Menunggu") = false := by decide
    rw [hfalse, Bool.false_and] at hc2
    cases hc2

/-- Witness for C5: the Waiting job scheduled at "09:00" is launched by
the 09:00 sweep and becomes Live, is not launched again by the following
09:01 sweep, and the 10:00 sweep alone would not have launched it. -/
theorem c5_schedule_sweep_once_witness :
    0 ∈ (check_scheduled_streams sC5w "09:00").2 ∧
    statusAt (check_scheduled_streams sC5w "09:00").1.streams 0 = "Sedang Live" ∧
    0 ∉ (check_scheduled_streams (check_scheduled_streams sC5w "09:00").1 "09:01").2 ∧
    0 ∉ (check_scheduled_streams sC5w "10:00").2 := by
  have hm : 0 ∈ (check_scheduled_streams sC5w "09:00").2 :=
    (c5_schedule_sweep_once sC5w "09:00" "09:01" 0).1.mpr ⟨by decide, by decide, by decide⟩
  refine ⟨hm, (c5_schedule_sweep_once sC5w "09:00" "09:01" 0).2.1 hm,
    (c5_schedule_sweep_once sC5w "09:00" "09:01" 0).2.2 hm, ?_⟩
  intro hmm
  have hx := (c5_schedule_sweep_once sC5w "10:00" "10:00" 0).1.mp hmm
  exact absurd hx.2.2 (by decide)

/-- C2 (amended): when the liveness sweep finds a row that is `Sedang
Live` with an active record whose process is dead, it removes the record
and cleans the pid/status artifacts in every case; the status becomes
`Selesai` (Finished) if the marker file reads `completed`, the literal
marker string if it starts with `error:`, and `Terputus` (Disconnected)
if a marker file exists with any other content — but when NO marker file
exists at all the status is left unchanged (the row stays `Sedang
Live`). -/
theorem c2_dead_process_classification (s : SupState) (i : Nat) (r : ActiveRecord)
    (hlen : i < s.streams.length)
    (hrec : lookupA s.active i = some r)
    (hdead : is_process_running s.procs r.pid = false)
    (hlive : statusAt s.streams i = "Sedang Live") :
    viewAt (check_stream_statuses s) i =
      ⟨(match lookupA s.statusFiles i with
        | some c =>
          if c = "completed" then "Selesai"
          else if strStartsWith c "error:" then c
          else "Terputus"
        | none => "Sedang Live"), none, none, none⟩ := by
  rw [viewAt_check s i hlen]
  unfold stepView viewAt classify
  simp [hrec, hdead, hlive]

/-- Witness for C2 on a concrete Live row whose record points at a dead
pid and whose marker reads `completed`: the sweep sets `Selesai` and
clears record, marker and pid file. -/
theorem c2_dead_process_classification_witness :
    0 < sC2w.streams.length ∧
    lookupA sC2w.active 0 = some ⟨9, ""⟩ ∧
    is_process_running sC2w.procs 9 = false ∧
    statusAt sC2w.streams 0 = "Sedang Live" ∧
    viewAt (check_stream_statuses sC2w) 0 = ⟨"Selesai", none, none, none⟩ := by
  refine ⟨by decide, by decide, by decide, by decide, ?_⟩
  have h := c2_dead_process_classification sC2w 0 ⟨9, ""⟩ (by decide) (by decide)
    (by decide) (by decide)
  rw [h]
  decide

/-- Counterexample to C2 as stated: on `sC2x` the job is Live and its
record points at the dead pid 9, but no status marker file exists; the
sweep removes the record yet does NOT transition the status to
`Terputus` — the row remains `Sedang Live`, contradicting "to
Disconnected when no terminal status marker is present". -/
theorem c2_missing_marker_counterexample :
    statusAt sC2x.streams 0 = "Sedang Live" ∧
    lookupA sC2x.active 0 = some ⟨9, ""⟩ ∧
    is_process_running sC2x.procs 9 = false ∧
    lookupA sC2x.statusFiles 0 = none ∧
    statusAt (check_stream_statuses sC2x).streams 0 = "Sedang Live" ∧
    statusAt (check_stream_statuses sC2x).streams 0 ≠ "Terputus" ∧
    lookupA (check_stream_statuses sC2x).active 0 = none := by
  decide

/-- C1 (amended): after a reconciliation pass (reattachment followed by
the liveness sweep, in the order of `main()`), no catalog row is `Sedang
Live` while holding an active record whose process is dead: a Live row's
record, if one exists, refers to a running ffmpeg process.  (The full
claimed iff is false — see the counterexample.) -/
theorem c1_no_stale_record_after_reconciliation (s : SupState) (i : Nat) (r : ActiveRecord)
    (hlen : i < (reconciliationPass s).streams.length)
    (hlive : statusAt (reconciliationPass s).streams i = "Sedang Live")
    (hrec : lookupA (reconciliationPass s).active i = some r) :
    is_process_running (reconciliationPass s).procs r.pid = true := by
  have hlen' : i < (reconnect_to_existing_streams s).streams.length := by
    have hc := check_length (reconnect_to_existing_streams s)
    unfold reconciliationPass at hlen
    rw [hc] at hlen
    exact hlen
  have hview := viewAt_check (reconnect_to_existing_streams s) i hlen'
  have hprocs := check_procs (reconnect_to_existing_streams s)
  unfold reconciliationPass
  rw [hprocs]
  apply stepView_no_stale (reconnect_to_existing_streams s).procs
      (viewAt (reconnect_to_existing_streams s) i) r
  · rw [← hview]
    exact hlive
  · rw [← hview]
    exact hrec

/-- Witness for C1 (amended) on a concrete state where reattachment
restores a Live row with a live record: the post-reconciliation record
pid is indeed running. -/
theorem c1_no_stale_record_witness :
    0 < (reconciliationPass sC1w).streams.length ∧
    statusAt (reconciliationPass sC1w).streams 0 = "Sedang Live" ∧
    lookupA (reconciliationPass sC1w).active 0 = some ⟨7, ""⟩ ∧
    is_process_running (reconciliationPass sC1w).procs 7 = true := by
  refine ⟨by decide, by decide, by decide, ?_⟩
  exact c1_no_stale_record_after_reconciliation sC1w 0 ⟨7, ""⟩ (by decide) (by decide)
    (by decide)

/-- Counterexample to C1 as stated: on `sC1x` (one `Sedang Live` row, no
active record, no files, no processes) the reconciliation pass leaves
the row `Sedang Live` with no ActiveJobRecord, so "status == Live iff an
ActiveJobRecord exists and its handle is alive" is false after the
pass. -/
theorem c1_live_iff_record_counterexample :
    specLiveInvariant (reconciliationPass sC1x) = false ∧
    statusAt (reconciliationPass sC1x).streams 0 = "Sedang Live" ∧
    lookupA (reconciliationPass sC1x).active 0 = none := by
  decide
